import Mathlib

/-
  Shallow embedding of the RSVP / Check-In Reconciliation Engine of the
  Rso-management repository.

  The repository is a Next.js / Supabase front-end.  The engine logic lives in
  client handlers: the data layer is the Supabase store, modelled here as plain
  lists of rows with the unique constraints of the persistent-store contract
  (unique on (event, student) for both the rsvps and the check_ins tables).
  JavaScript millisecond timestamps are modelled as Int; `Math.round` on a
  non-negative quotient num/den is floor (num/den + 1/2), which over naturals
  is (2*num + den) / (2*den).
-/

namespace Rso

/-- One row of the rsvps table: the insert in `EventsClient.handleRsvp` passes
only event_id and student_id. -/
structure RsvpRow where
  event_id : Nat
  student_id : Nat
deriving DecidableEq, Repr

/-- One row of the check_ins table: the insert in `CheckInClient.handleCheckIn`
passes only event_id and student_id. -/
structure CheckInRow where
  event_id : Nat
  student_id : Nat
deriving DecidableEq, Repr

/-- Result of a store insert under the persistent-store contract: either the
row is inserted, or the unique constraint on (event, student) rejects it with
Postgres code 23505. -/
inductive InsertOutcome (α : Type) where
  | ok (db : α)
  | uniqueViolation
deriving DecidableEq, Repr

/-- Whether a check-in row for the pair is present. -/
def checkInMem (db : List CheckInRow) (e s : Nat) : Bool :=
  db.any fun r => r.event_id == e && r.student_id == s

/-- Number of check-in rows for the pair. -/
def countCheckIns (db : List CheckInRow) (e s : Nat) : Nat :=
  (db.filter fun r => r.event_id == e && r.student_id == s).length

/-- Insert into check_ins under the unique constraint on (event, student). -/
def insertCheckIn (db : List CheckInRow) (e s : Nat) :
    InsertOutcome (List CheckInRow) :=
  if checkInMem db e s then .uniqueViolation else .ok (db ++ [⟨e, s⟩])

/-- Outcome surfaced by the check-in UI handler (`setStatus`). -/
inductive CheckInStatus where
  | success
  | failure
deriving DecidableEq, Repr

/-- Later revision of `CheckInClient.handleCheckIn` (no reservation input):
if `alreadyCheckedIn` (read from the store when the page loaded) the call
reports success without touching the store; otherwise it inserts, treating a
unique-constraint violation (code 23505) as success. -/
def handleCheckIn (alreadyCheckedIn : Bool) (db : List CheckInRow) (e s : Nat) :
    List CheckInRow × CheckInStatus :=
  if alreadyCheckedIn then (db, .success)
  else
    match insertCheckIn db e s with
    | .ok db2 => (db2, .success)
    | .uniqueViolation => (db, .success)

/-- Earlier revision of `CheckInClient.handleCheckIn`: it first rejects the
call with an error ("You have not RSVPd to this event") when `hasRsvp` is
false, and otherwise behaves exactly like the later revision. -/
def handleCheckInV1 (hasRsvp alreadyCheckedIn : Bool) (db : List CheckInRow)
    (e s : Nat) : List CheckInRow × CheckInStatus :=
  if !hasRsvp then (db, .failure)
  else handleCheckIn alreadyCheckedIn db e s

/-- Whether an rsvp row for the pair is present. -/
def rsvpMem (db : List RsvpRow) (e s : Nat) : Bool :=
  db.any fun r => r.event_id == e && r.student_id == s

/-- Insert into rsvps under the unique constraint on (event, student). -/
def insertRsvp (db : List RsvpRow) (e s : Nat) : InsertOutcome (List RsvpRow) :=
  if rsvpMem db e s then .uniqueViolation else .ok (db ++ [⟨e, s⟩])

/-- The store delete issued by the cancel path:
`delete().eq(event_id, e).eq(student_id, s)`. -/
def deleteRsvp (db : List RsvpRow) (e s : Nat) : List RsvpRow :=
  db.filter fun r => !(r.event_id == e && r.student_id == s)

/-- Outcome surfaced by `MyRsvpsClient.handleCancelRsvp`. -/
inductive CancelOutcome where
  | windowClosed
  | canceled
deriving DecidableEq, Repr

/-- `MyRsvpsClient.handleCancelRsvp`: the source computes
`hoursSinceEvent = (now - eventDate) / (1000*60*60)` and refuses when it
exceeds 24; over millisecond timestamps that condition is
`now - eventDate > 86400000`.  Past the cutoff it sets an error and returns
before issuing any delete; otherwise it deletes the reservation row. -/
def handleCancelRsvp (db : List RsvpRow) (e s : Nat) (eventMs nowMs : Int) :
    List RsvpRow × CancelOutcome :=
  if nowMs - eventMs > 86400000 then (db, .windowClosed)
  else (deleteRsvp db e s, .canceled)

/-- Outcome surfaced by `EventsClient.handleRsvp`. -/
inductive RsvpOutcome where
  | windowClosed
  | canceled
  | reserved
  | conflict
deriving DecidableEq, Repr

/-- `EventsClient.handleRsvp`: when the student already has a reservation the
handler runs the same 24-hour-cutoff cancel path as `handleCancelRsvp`;
otherwise it inserts a reservation row.  The handler never reads the event
capacity: a failed insert is only the unique-constraint conflict surfaced as
an error. -/
def handleRsvp (hasRsvp : Bool) (db : List RsvpRow) (e s : Nat)
    (eventMs nowMs : Int) : List RsvpRow × RsvpOutcome :=
  if hasRsvp then
    if nowMs - eventMs > 86400000 then (db, .windowClosed)
    else (deleteRsvp db e s, .canceled)
  else
    match insertRsvp db e s with
    | .ok db2 => (db2, .reserved)
    | .uniqueViolation => (db, .conflict)

/-- Number of reservation rows of one event, as selected by `rsvps(count)` and
rendered verbatim in the event card. -/
def rsvpCountFor (db : List RsvpRow) (e : Nat) : Nat :=
  (db.filter fun r => r.event_id == e).length

/-- The RSVP button of `EventsClient.renderEventCard` is disabled while the
call is in flight or once the last-read count has reached capacity (for a
student who has not reserved): `loading || (isFull && !isRsvpd)` with
`isFull = rsvpCount >= capacity`. -/
def rsvpButtonDisabled (loading : Bool) (rsvpCount capacity : Nat)
    (isRsvpd : Bool) : Bool :=
  loading || (decide (capacity ≤ rsvpCount) && !isRsvpd)

/-- `Math.round (num / den)` for non-negative operands: floor of
num/den + 1/2, which over naturals is (2*num + den) / (2*den). -/
def jsRound (num den : Nat) : Nat :=
  (2 * num + den) / (2 * den)

/-- The rounding the spec writes: floor of the exact rational num/den + 1/2. -/
def specRound (num den : Nat) : Nat :=
  ⌊(num : ℚ) / (den : ℚ) + 1 / 2⌋₊

/-- `EventStatsClient` (reconciliation revision): actualAttendance is the
larger of the reservation count and the check-in count. -/
def actualAttendance (rsvpCount checkInCount : Nat) : Nat :=
  max rsvpCount checkInCount

/-- `EventStatsClient`: `fillRate = Math.round((actualAttendance / capacity) * 100)`. -/
def fillRate (rsvpCount checkInCount capacity : Nat) : Nat :=
  jsRound (100 * actualAttendance rsvpCount checkInCount) capacity

/-- Width of the capacity progress bar: `Math.min(fillRate, 100)`. -/
def fillRateBarWidth (rsvpCount checkInCount capacity : Nat) : Nat :=
  min (fillRate rsvpCount checkInCount capacity) 100

/-- Profile fields joined onto a reservation row or fetched for a check-in. -/
structure ProfileInfo where
  name : String
  email : String
deriving DecidableEq, Repr

/-- A reservation row as the stats page selects it, with the student profile
joined on. -/
structure RsvpFull where
  id : Nat
  student_id : Nat
  rsvp_date : Int
  profiles : ProfileInfo
deriving DecidableEq, Repr

/-- A check-in row as the stats page selects it. -/
structure CheckIn where
  student_id : Nat
  check_in_time : Int
deriving DecidableEq, Repr

/-- The `checkInMap` built by `forEach`/`Map.set`: the last row written for a
student wins. -/
def checkInMapGet (cs : List CheckIn) (s : Nat) : Option Int :=
  cs.foldl (fun acc c => if c.student_id == s then some c.check_in_time else acc)
    none

/-- `checkInMap.has s`. -/
def checkInMapHas (cs : List CheckIn) (s : Nat) : Bool :=
  (checkInMapGet cs s).isSome

/-- Spec-side membership: some check-in row carries this student. -/
def hasCheckInAny (cs : List CheckIn) (s : Nat) : Bool :=
  cs.any fun c => c.student_id == s

/-- `EventStatsClient`: `event.rsvps.filter(r => checkInMap.has(r.student_id)).length`. -/
def rsvpStudentsWhoCheckedIn (rsvps : List RsvpFull) (cs : List CheckIn) : Nat :=
  (rsvps.filter fun r => checkInMapHas cs r.student_id).length

/-- `EventStatsClient`: attendance rate over the students who reserved,
`rsvpCount > 0 ? Math.round((rsvpStudentsWhoCheckedIn / rsvpCount) * 100) : 0`. -/
def attendanceRateStats (rsvps : List RsvpFull) (cs : List CheckIn) : Nat :=
  if 0 < rsvps.length then
    jsRound (100 * rsvpStudentsWhoCheckedIn rsvps cs) rsvps.length
  else 0

/-- `QRCheckInClient`: its attendance rate divides the raw check-in count by
the reservation count, `rsvpCount > 0 ? Math.round((checkInCount / rsvpCount) * 100) : 0`. -/
def attendanceRateQr (rsvpCount checkInCount : Nat) : Nat :=
  if 0 < rsvpCount then jsRound (100 * checkInCount) rsvpCount else 0

/-- One entry of the recent-check-ins display list of `QRCheckInClient`. -/
structure FeedEntry where
  id : Nat
  name : String
  time : Int
deriving DecidableEq, Repr

/-- Observer state of `QRCheckInClient`: the attendance counter and the
recent-activity display list. -/
structure FeedState where
  checkInCount : Nat
  recentCheckIns : List FeedEntry
deriving DecidableEq, Repr

/-- JavaScript `profile.name || fallback` where name may be null or empty. -/
def displayName (name : Option String) : String :=
  match name with
  | none => "Unknown Student"
  | some n => if n = "" then "Unknown Student" else n

/-- The check-ins subscription handler of `QRCheckInClient`: on each INSERT
delivery it increments the counter, fetches the student profile, and — only
when the profile row resolves — prepends the entry with
`[newCheckIn, ...prev.slice(0, 9)]`.  The `profile` argument is the result of
the profile fetch: none when no row came back, otherwise the (nullable) name. -/
def feedOnInsert (st : FeedState) (payloadId _studentId : Nat) (timeMs : Int)
    (profile : Option (Option String)) : FeedState :=
  let count := st.checkInCount + 1
  match profile with
  | some pname =>
      { checkInCount := count,
        recentCheckIns :=
          ⟨payloadId, displayName pname, timeMs⟩ :: st.recentCheckIns.take 9 }
  | none => { checkInCount := count, recentCheckIns := st.recentCheckIns }

/-- The subscription handler as executed against the store: it issues no
insert or delete on the check_ins table, so the ledger passes through
unchanged. -/
def feedOnInsertWithLedger (ledger : List CheckInRow) (st : FeedState)
    (payloadId studentId : Nat) (timeMs : Int) (profile : Option (Option String)) :
    List CheckInRow × FeedState :=
  (ledger, feedOnInsert st payloadId studentId timeMs profile)

/-- The three tables the event-deletion handler touches. -/
structure Store where
  events : List Nat
  rsvps : List RsvpRow
  checkIns : List CheckInRow
deriving DecidableEq, Repr

/-- `delete().eq(event_id, e)` on rsvps. -/
def deleteRsvpsFor (db : List RsvpRow) (e : Nat) : List RsvpRow :=
  db.filter fun r => !(r.event_id == e)

/-- `delete().eq(event_id, e)` on check_ins. -/
def deleteCheckInsFor (db : List CheckInRow) (e : Nat) : List CheckInRow :=
  db.filter fun c => !(c.event_id == e)

/-- Outcome surfaced by the deletion handler. -/
inductive DeleteOutcome where
  | success
  | failure
deriving DecidableEq, Repr

/-- `DashboardClient.handleDeleteEvent` / `EventStatsClient.handleDeleteEvent`:
three independent remote deletes, rsvps first, then check_ins, then the event
row.  The source awaits the first two deletes without reading their error
result, and only throws (into the catch block, which performs no rollback)
when the event delete itself reports an error.  The three Booleans model
whether each remote delete succeeds. -/
def handleDeleteEvent (st : Store) (e : Nat)
    (rsvpsDeleteOk checkInsDeleteOk eventDeleteOk : Bool) :
    Store × DeleteOutcome :=
  let rs := if rsvpsDeleteOk then deleteRsvpsFor st.rsvps e else st.rsvps
  let cs := if checkInsDeleteOk then deleteCheckInsFor st.checkIns e else st.checkIns
  if eventDeleteOk then
    ({ events := st.events.filter fun x => !(x == e), rsvps := rs, checkIns := cs },
      .success)
  else
    ({ events := st.events, rsvps := rs, checkIns := cs }, .failure)

/-- The selectable roster sort keys of `EventStatsClient`. -/
inductive SortField where
  | name
  | email
  | rsvpDate
  | checkIn
deriving DecidableEq, Repr

/-- Sort direction. -/
inductive SortDir where
  | asc
  | desc
deriving DecidableEq, Repr

/-- Flip between ascending and descending. -/
def toggleDir : SortDir → SortDir
  | .asc => .desc
  | .desc => .asc

/-- `EventStatsClient.handleSort`: clicking the current field toggles the
stored direction; clicking a new field selects it and resets to ascending. -/
def handleSort (cur : SortField × SortDir) (f : SortField) :
    SortField × SortDir :=
  if f = cur.1 then (cur.1, toggleDir cur.2) else (f, .asc)

/-- One entry of the merged attendee roster built by
`EventStatsClient.attendeesList`. -/
structure Attendee where
  student_id : Nat
  name : String
  email : String
  rsvp_date : Option Int
  rsvp_id : Option Nat
  check_in_time : Option Int
  hasRsvp : Bool
  hasCheckIn : Bool
deriving DecidableEq, Repr

/-- The rsvp-date key of the roster comparator: the reservation time, falling
back to the check-in time, else 0. -/
def dateKey (a : Attendee) : Int :=
  match a.rsvp_date with
  | some t => t
  | none =>
      match a.check_in_time with
      | some t => t
      | none => 0

/-- The comparator branch `aVal > bVal ? 1 : -1` (ascending) respectively
`aVal < bVal ? 1 : -1` (descending): it never returns 0. -/
def cmpDir {α : Type} [LT α] [DecidableRel (α := α) (· < ·)] (d : SortDir)
    (x y : α) : Int :=
  match d with
  | .asc => if y < x then 1 else -1
  | .desc => if x < y then 1 else -1

/-- The comparator of `EventStatsClient.sortedAttendees`: lower-cased name or
email, check-in presence as 1/0, or the rsvp-date key, compared with the
`cmpDir` branch above. -/
def cmpAttendees (f : SortField) (d : SortDir) (a b : Attendee) : Int :=
  match f with
  | .name => cmpDir d a.name.toLower b.name.toLower
  | .email => cmpDir d a.email.toLower b.email.toLower
  | .checkIn =>
      cmpDir d (if a.hasCheckIn then (1 : Nat) else 0)
        (if b.hasCheckIn then (1 : Nat) else 0)
  | .rsvpDate => cmpDir d (dateKey a) (dateKey b)

/-- `rsvpMap`, built with `forEach`/`Map.set` over the event's reservations:
the last row written for a student wins. -/
def rsvpMapGet (rsvps : List RsvpFull) (s : Nat) : Option RsvpFull :=
  rsvps.foldl (fun acc r => if r.student_id == s then some r else acc) none

/-- Whether some reservation row carries this student (`rsvpMap.has`). -/
def rsvpAny (rsvps : List RsvpFull) (s : Nat) : Bool :=
  rsvps.any fun r => r.student_id == s

/-- `EventStatsClient.attendeesList`: every reservation becomes a roster entry
tagged with its check-in state; then every check-in whose student has no
reservation is appended as a walk-in — but only when the separately fetched
profile (`checkInProfiles`) resolved for that student. -/
def attendeesList (rsvps : List RsvpFull) (cs : List CheckIn)
    (profilesOf : Nat → Option ProfileInfo) : List Attendee :=
  (rsvps.map fun r =>
    let t := checkInMapGet cs r.student_id
    { student_id := r.student_id, name := r.profiles.name,
      email := r.profiles.email, rsvp_date := some r.rsvp_date,
      rsvp_id := some r.id, check_in_time := t,
      hasRsvp := true, hasCheckIn := t.isSome })
  ++ cs.filterMap fun c =>
      if rsvpAny rsvps c.student_id then none
      else
        match profilesOf c.student_id with
        | some p =>
            some { student_id := c.student_id, name := p.name, email := p.email,
                   rsvp_date := none, rsvp_id := none,
                   check_in_time := some c.check_in_time,
                   hasRsvp := false, hasCheckIn := true }
        | none => none

/-- One row of the CSV export, with the date cells kept as raw timestamps
(the source formats them for display; formatting is outside the engine). -/
structure CsvRow where
  name : String
  email : String
  rsvpDate : Option Int
  checkInTime : Option Int
  attended : Bool
deriving DecidableEq, Repr

/-- `EventStatsClient.exportCSV` (rows before the final in-place sort, which
only permutes them): first every check-in whose profile resolved — skipped
entirely otherwise — then every reservation whose student never checked in. -/
def csvRows (rsvps : List RsvpFull) (cs : List CheckIn)
    (profilesOf : Nat → Option ProfileInfo) : List CsvRow :=
  (cs.filterMap fun c =>
    match profilesOf c.student_id with
    | some p =>
        some ⟨p.name, p.email, (rsvpMapGet rsvps c.student_id).map (·.rsvp_date),
              some c.check_in_time, true⟩
    | none => none)
  ++ (rsvps.filter fun r => !(hasCheckInAny cs r.student_id)).map fun r =>
      ⟨r.profiles.name, r.profiles.email, some r.rsvp_date, none, false⟩

lemma jsRound_eq_specRound (num den : Nat) (h : 0 < den) :
    jsRound num den = specRound num den := by
  unfold jsRound specRound
  have hd : ((den : ℚ)) ≠ 0 := by exact_mod_cast h.ne'
  have key : (num : ℚ) / (den : ℚ) + 1 / 2
      = ((2 * num + den : Nat) : ℚ) / ((2 * den : Nat) : ℚ) := by
    push_cast
    field_simp
    ring
  rw [key, Nat.floor_div_nat, Nat.floor_natCast]

lemma handleCheckIn_success (f : Bool) (db : List CheckInRow) (e s : Nat) :
    (handleCheckIn f db e s).2 = .success := by
  cases f <;> unfold handleCheckIn insertCheckIn <;>
    by_cases hm : checkInMem db e s <;> simp [hm]

lemma handleCheckIn_of_mem (f : Bool) (db : List CheckInRow) (e s : Nat)
    (h : checkInMem db e s = true) :
    handleCheckIn f db e s = (db, .success) := by
  cases f <;> simp [handleCheckIn, insertCheckIn, h]

lemma handleCheckIn_mem (f : Bool) (db : List CheckInRow) (e s : Nat)
    (h : f = true → checkInMem db e s = true) :
    checkInMem (handleCheckIn f db e s).1 e s = true := by
  cases f with
  | false =>
      by_cases hm : checkInMem db e s
      · rw [handleCheckIn_of_mem false db e s hm]
        exact hm
      · have hstep : handleCheckIn false db e s = (db ++ [⟨e, s⟩], .success) := by
          simp [handleCheckIn, insertCheckIn, hm]
        rw [hstep]
        simp [checkInMem, List.any_append]
  | true => simpa [handleCheckIn] using h rfl

lemma countCheckIns_pos_of_mem {db : List CheckInRow} {e s : Nat}
    (h : checkInMem db e s = true) : 1 ≤ countCheckIns db e s := by
  simp only [checkInMem, List.any_eq_true] at h
  obtain ⟨x, hx, hpx⟩ := h
  exact List.length_pos_of_mem (List.mem_filter.2 ⟨hx, hpx⟩)

lemma countCheckIns_eq_zero_of_not_mem {db : List CheckInRow} {e s : Nat}
    (h : checkInMem db e s = false) : countCheckIns db e s = 0 := by
  simp only [checkInMem, List.any_eq_false] at h
  simp only [countCheckIns, List.length_eq_zero]
  exact List.filter_eq_nil_iff.2 h

lemma countCheckIns_append_self (db : List CheckInRow) (e s : Nat) :
    countCheckIns (db ++ [⟨e, s⟩]) e s = countCheckIns db e s + 1 := by
  simp [countCheckIns, List.filter_append]

/-- Claim C1: for every event E and student S, calling checkIn(E, S) when an
AttendanceRecord for the pair already exists succeeds and creates no second
record: a conflicting insert (unique-constraint violation, code 23505) is
reported as success, so two sequential or two concurrent checkIn calls — the
two alreadyCheckedIn flags f1, f2 may each be a stale read — both report
success, the second call leaves the table untouched, and exactly one record
for (E, S) remains. -/
theorem checkIn_idempotent (db : List CheckInRow) (e s : Nat) (f1 f2 : Bool)
    (h1 : f1 = true → checkInMem db e s = true)
    (hu : ∀ a b : Nat, countCheckIns db a b ≤ 1) :
    (handleCheckIn f1 db e s).2 = .success ∧
    (handleCheckIn f2 (handleCheckIn f1 db e s).1 e s).2 = .success ∧
    (handleCheckIn f2 (handleCheckIn f1 db e s).1 e s).1
      = (handleCheckIn f1 db e s).1 ∧
    countCheckIns (handleCheckIn f2 (handleCheckIn f1 db e s).1 e s).1 e s = 1 := by
  have hs1 := handleCheckIn_success f1 db e s
  have hmem1 := handleCheckIn_mem f1 db e s h1
  have hstep2 := handleCheckIn_of_mem f2 (handleCheckIn f1 db e s).1 e s hmem1
  refine ⟨hs1, by rw [hstep2], by rw [hstep2], ?_⟩
  rw [hstep2]
  cases f1 with
  | false =>
      by_cases hm : checkInMem db e s
      · rw [handleCheckIn_of_mem false db e s hm]
        exact le_antisymm (hu e s) (countCheckIns_pos_of_mem hm)
      · have : handleCheckIn false db e s = (db ++ [⟨e, s⟩], .success) := by
          simp [handleCheckIn, insertCheckIn, hm]
        rw [this, countCheckIns_append_self,
          countCheckIns_eq_zero_of_not_mem (Bool.of_not_eq_true hm)]
  | true =>
      rw [handleCheckIn_of_mem true db e s (h1 rfl)]
      exact le_antisymm (hu e s) (countCheckIns_pos_of_mem (h1 rfl))

/-- Witness for claim C1 at the empty table with two fresh calls. -/
theorem checkIn_idempotent_witness :
    (handleCheckIn false [] 0 0).2 = .success ∧
    (handleCheckIn false (handleCheckIn false [] 0 0).1 0 0).2 = .success ∧
    (handleCheckIn false (handleCheckIn false [] 0 0).1 0 0).1
      = (handleCheckIn false [] 0 0).1 ∧
    countCheckIns (handleCheckIn false (handleCheckIn false [] 0 0).1 0 0).1 0 0 = 1 :=
  checkIn_idempotent [] 0 0 false false (by simp)
    (fun a b => by simp [countCheckIns])


/-- Counterexample to claim C2: in the earlier product revision of
`CheckInClient.handleCheckIn`, a student with no reservation (hasRsvp false)
is rejected with an error and no AttendanceRecord is created, so checkIn does
fail solely because no reservation exists. -/
theorem checkIn_noReservation_counterexample :
    handleCheckInV1 false false [] 0 0 = ([], .failure) := by decide

/-- Claim C2 (amended): in the later revision of
`CheckInClient.handleCheckIn` the reservation state is not consulted —
walk-ins are accepted, the call reports success and an AttendanceRecord for
the pair is present afterwards; in the earlier revision the same call with no
reservation fails and leaves the table unchanged. -/
theorem checkIn_walkIn_policy (db : List CheckInRow) (e s : Nat) (f : Bool)
    (h : f = true → checkInMem db e s = true) :
    (handleCheckIn f db e s).2 = .success ∧
    checkInMem (handleCheckIn f db e s).1 e s = true ∧
    (∀ g : Bool, handleCheckInV1 false g db e s = (db, .failure)) := by
  refine ⟨handleCheckIn_success f db e s, handleCheckIn_mem f db e s h, ?_⟩
  intro g
  simp [handleCheckInV1]

/-- Witness for claim C2 at the empty table. -/
theorem checkIn_walkIn_policy_witness :
    (handleCheckIn false [] 2 3).2 = .success ∧
    checkInMem (handleCheckIn false [] 2 3).1 2 3 = true ∧
    (∀ g : Bool, handleCheckInV1 false g [] 2 3 = ([], .failure)) :=
  checkIn_walkIn_policy [] 2 3 false (by simp)

lemma rsvpMem_deleteRsvp (db : List RsvpRow) (e s : Nat) :
    rsvpMem (deleteRsvp db e s) e s = false := by
  simp only [rsvpMem, deleteRsvp]
  rw [List.any_eq_false]
  intro x hx
  have hcond := (List.mem_filter.1 hx).2
  simp only [Bool.not_and] at hcond ⊢
  rcases (by simpa using hcond : ¬x.event_id = e ∨ ¬x.student_id = s) with h1 | h2
  · simp [h1]
  · simp [h2]

/-- Claim C3: for a student with a live reservation, cancel fails with the
closed-window error exactly when now is more than 24 hours after the event
time; in that case the reservation row is untouched and the failure is
surfaced; within the window the row is deleted.  `EventsClient.handleRsvp`
applies the same cutoff on its cancel path. -/
theorem cancel_window_cutoff (db : List RsvpRow) (e s : Nat)
    (eventMs nowMs : Int) (hres : rsvpMem db e s = true) :
    ((handleCancelRsvp db e s eventMs nowMs).2 = .windowClosed ↔
      nowMs - eventMs > 86400000) ∧
    (nowMs - eventMs > 86400000 →
      (handleCancelRsvp db e s eventMs nowMs).1 = db ∧
      rsvpMem (handleCancelRsvp db e s eventMs nowMs).1 e s = true) ∧
    (¬ nowMs - eventMs > 86400000 →
      (handleCancelRsvp db e s eventMs nowMs).1 = deleteRsvp db e s ∧
      rsvpMem (handleCancelRsvp db e s eventMs nowMs).1 e s = false) ∧
    ((handleRsvp true db e s eventMs nowMs).2 = .windowClosed ↔
      nowMs - eventMs > 86400000) := by
  by_cases hw : nowMs - eventMs > 86400000
  · refine ⟨?_, fun _ => ?_, fun hc => absurd hw hc, ?_⟩ <;>
      simp [handleCancelRsvp, handleRsvp, hw, hres]
  · refine ⟨?_, fun hc => absurd hc hw, fun _ => ?_, ?_⟩ <;>
      simp [handleCancelRsvp, handleRsvp, hw, rsvpMem_deleteRsvp]

/-- Witness for claim C3 at a reservation 25 hours after the event time. -/
theorem cancel_window_cutoff_witness :
    ((handleCancelRsvp [⟨0, 0⟩] 0 0 0 90000000).2 = .windowClosed ↔
      (90000000 : Int) - 0 > 86400000) ∧
    ((90000000 : Int) - 0 > 86400000 →
      (handleCancelRsvp [⟨0, 0⟩] 0 0 0 90000000).1 = [⟨0, 0⟩] ∧
      rsvpMem (handleCancelRsvp [⟨0, 0⟩] 0 0 0 90000000).1 0 0 = true) ∧
    (¬ (90000000 : Int) - 0 > 86400000 →
      (handleCancelRsvp [⟨0, 0⟩] 0 0 0 90000000).1 = deleteRsvp [⟨0, 0⟩] 0 0 ∧
      rsvpMem (handleCancelRsvp [⟨0, 0⟩] 0 0 0 90000000).1 0 0 = false) ∧
    ((handleRsvp true [⟨0, 0⟩] 0 0 0 90000000).2 = .windowClosed ↔
      (90000000 : Int) - 0 > 86400000) :=
  cancel_window_cutoff [⟨0, 0⟩] 0 0 0 90000000 (by decide)


/-- Claim C4: the stats view computes actualAttendance as the larger of the
reservation and check-in counts and fillRate as the rounded percentage of
capacity, with the progress-bar width clamped to at most 100; with capacity
50, 30 reservations and 35 check-ins the results are 35 and 70. -/
theorem fillRate_spec (r c cap : Nat) (h : 0 < cap) :
    actualAttendance r c = max r c ∧
    fillRate r c cap = specRound (100 * max r c) cap ∧
    fillRateBarWidth r c cap ≤ 100 ∧
    actualAttendance 30 35 = 35 ∧ fillRate 30 35 50 = 70 ∧
    fillRateBarWidth 30 35 50 = 70 := by
  refine ⟨rfl, ?_, min_le_right _ _, by decide, by decide, by decide⟩
  unfold fillRate actualAttendance
  exact jsRound_eq_specRound _ cap h

/-- Witness for claim C4 at capacity 50, 30 reservations, 35 check-ins. -/
theorem fillRate_spec_witness :
    fillRate 30 35 50 = specRound (100 * max 30 35) 50 :=
  (fillRate_spec 30 35 50 (by decide)).2.1

lemma checkInMapGet_isSome (cs : List CheckIn) (s : Nat) (acc : Option Int) :
    (cs.foldl
      (fun acc c => if c.student_id == s then some c.check_in_time else acc)
      acc).isSome = (acc.isSome || cs.any fun c => c.student_id == s) := by
  induction cs generalizing acc with
  | nil => simp
  | cons c cs ih =>
      simp only [List.foldl_cons, List.any_cons, ih]
      by_cases hc : c.student_id == s
      · simp [hc]
      · simp [hc, Bool.or_comm, Bool.or_assoc, Bool.or_left_comm]

lemma checkInMapHas_eq_any (cs : List CheckIn) (s : Nat) :
    checkInMapHas cs s = hasCheckInAny cs s := by
  unfold checkInMapHas checkInMapGet hasCheckInAny
  rw [checkInMapGet_isSome]
  simp

/-- Counterexample to claim C5: at one reservation without check-in plus one
walk-in check-in, the claim requires attendanceRate 0, but the cited
`QRCheckInClient` formula divides the raw check-in count by the reservation
count and yields 100; the `EventStatsClient` formula does yield 0 there. -/
theorem attendanceRate_stats_counterexample :
    attendanceRateQr 1 1 = 100 ∧ attendanceRateQr 1 1 ≠ 0 ∧
    attendanceRateStats [⟨1, 1, 0, ⟨"a", "b"⟩⟩] [⟨2, 5⟩] = 0 := by
  refine ⟨by decide, by decide, by decide⟩

/-- Claim C5 (amended): the `EventStatsClient` attendance rate equals the
rounded share of reservations whose student also has a check-in row, is 0
when no reservations exist, and is unchanged by a walk-in check-in from a
student with no reservation; the `QRCheckInClient` rate instead uses the raw
check-in count (see the counterexample). -/
theorem attendanceRate_stats_spec (rsvps : List RsvpFull) (cs : List CheckIn)
    (c : CheckIn) :
    attendanceRateStats rsvps cs
      = (if 0 < rsvps.length then
          specRound
            (100 * (rsvps.filter fun r => hasCheckInAny cs r.student_id).length)
            rsvps.length
        else 0) ∧
    attendanceRateStats [] cs = 0 ∧
    ((rsvps.all fun r => !(r.student_id == c.student_id)) = true →
      attendanceRateStats rsvps (c :: cs) = attendanceRateStats rsvps cs) := by
  refine ⟨?_, by simp [attendanceRateStats], ?_⟩
  · unfold attendanceRateStats rsvpStudentsWhoCheckedIn
    by_cases hl : 0 < rsvps.length
    · rw [if_pos hl, if_pos hl, jsRound_eq_specRound _ _ hl]
      have hfe : (rsvps.filter fun r => checkInMapHas cs r.student_id)
          = rsvps.filter fun r => hasCheckInAny cs r.student_id :=
        List.filter_congr fun (r : RsvpFull) _ => checkInMapHas_eq_any cs r.student_id
      rw [hfe]
    · rw [if_neg hl, if_neg hl]
  · intro hall
    unfold attendanceRateStats rsvpStudentsWhoCheckedIn
    have hfe : (rsvps.filter fun r => checkInMapHas (c :: cs) r.student_id)
        = rsvps.filter fun r => checkInMapHas cs r.student_id := by
      apply List.filter_congr
      intro r hr
      rw [checkInMapHas_eq_any, checkInMapHas_eq_any]
      unfold hasCheckInAny
      simp only [List.any_cons]
      have hall2 := List.all_eq_true.1 hall r hr
      have hne : c.student_id ≠ r.student_id := by
        intro hEq
        simp [hEq] at hall2
      simp [hne]
    rw [hfe]

/-- Witness for claim C5: one reservation, one walk-in check-in. -/
theorem attendanceRate_stats_spec_witness :
    attendanceRateStats [⟨1, 1, 0, ⟨"a", "b"⟩⟩] [⟨2, 5⟩]
      = (if 0 < ([⟨1, 1, 0, ⟨"a", "b"⟩⟩] : List RsvpFull).length then
          specRound
            (100 * (([⟨1, 1, 0, ⟨"a", "b"⟩⟩] : List RsvpFull).filter fun r =>
              hasCheckInAny [⟨2, 5⟩] r.student_id).length)
            ([⟨1, 1, 0, ⟨"a", "b"⟩⟩] : List RsvpFull).length
        else 0) ∧
    attendanceRateStats [⟨1, 1, 0, ⟨"a", "b"⟩⟩] [⟨2, 5⟩, ⟨9, 9⟩]
      = attendanceRateStats [⟨1, 1, 0, ⟨"a", "b"⟩⟩] [⟨9, 9⟩] :=
  ⟨(attendanceRate_stats_spec [⟨1, 1, 0, ⟨"a", "b"⟩⟩] [⟨2, 5⟩] ⟨2, 5⟩).1,
   (attendanceRate_stats_spec [⟨1, 1, 0, ⟨"a", "b"⟩⟩] [⟨9, 9⟩] ⟨2, 5⟩).2.2
     (by decide)⟩


/-- Claim C6: the reserve path of `EventsClient.handleRsvp` inserts the
reservation row without any capacity input — for any table without the pair
the insert is accepted and the per-event count grows by one, exposing any
over-capacity count — while the UI button alone is disabled once the
last-read count reaches capacity. -/
theorem reserve_ignores_capacity (db : List RsvpRow) (e s : Nat)
    (eventMs nowMs : Int) (h : rsvpMem db e s = false) :
    handleRsvp false db e s eventMs nowMs = (db ++ [⟨e, s⟩], .reserved) ∧
    rsvpCountFor (handleRsvp false db e s eventMs nowMs).1 e
      = rsvpCountFor db e + 1 ∧
    (∀ cap : Nat, ∀ loading : Bool, cap ≤ rsvpCountFor db e →
      rsvpButtonDisabled loading (rsvpCountFor db e) cap false = true) := by
  have hstep : handleRsvp false db e s eventMs nowMs = (db ++ [⟨e, s⟩], .reserved) := by
    simp [handleRsvp, insertRsvp, h]
  refine ⟨hstep, ?_, ?_⟩
  · rw [hstep]
    simp [rsvpCountFor, List.filter_append]
  · intro cap loading hcap
    simp [rsvpButtonDisabled, hcap]

/-- Witness for claim C6: capacity 2, two existing reservations, a third
student is accepted and the ledger count becomes 3. -/
theorem reserve_ignores_capacity_witness :
    (handleRsvp false [⟨0, 1⟩, ⟨0, 2⟩] 0 3 0 0).2 = .reserved ∧
    rsvpCountFor (handleRsvp false [⟨0, 1⟩, ⟨0, 2⟩] 0 3 0 0).1 0 = 3 ∧
    2 < 3 ∧
    rsvpButtonDisabled false (rsvpCountFor [⟨0, 1⟩, ⟨0, 2⟩] 0) 2 false = true := by
  have h := reserve_ignores_capacity [⟨0, 1⟩, ⟨0, 2⟩] 0 3 0 0 (by decide)
  exact ⟨by rw [h.1], by rw [h.1]; decide, by decide,
    h.2.2 2 false (by decide)⟩

/-- Counterexample to claim C7: a delivery whose student profile fails to
resolve increments the attendance counter but prepends nothing, so the new
entry is not added to the recent-activity list. -/
theorem liveFeed_drops_unresolved_profile :
    feedOnInsert ⟨0, []⟩ 1 2 3 none = ⟨1, []⟩ := by decide

/-- Claim C7 (amended): on each attendance-insertion delivery the observer
increments its counter and leaves the underlying ledger untouched; the new
entry is prepended (newest first, keeping at most the previous nine, so the
display list stays within 10) exactly when the student profile row resolves,
and the list is unchanged when it does not. -/
theorem liveFeed_step_spec (ledger : List CheckInRow) (st : FeedState)
    (pid sid : Nat) (t : Int) (prof : Option (Option String)) :
    (feedOnInsertWithLedger ledger st pid sid t prof).1 = ledger ∧
    (feedOnInsert st pid sid t prof).checkInCount = st.checkInCount + 1 ∧
    (st.recentCheckIns.length ≤ 10 →
      (feedOnInsert st pid sid t prof).recentCheckIns.length ≤ 10) ∧
    (∀ n, prof = some n →
      (feedOnInsert st pid sid t prof).recentCheckIns
        = ⟨pid, displayName n, t⟩ :: st.recentCheckIns.take 9) ∧
    (prof = none →
      (feedOnInsert st pid sid t prof).recentCheckIns = st.recentCheckIns) := by
  refine ⟨rfl, ?_, ?_, ?_, ?_⟩
  · cases prof <;> rfl
  · intro hlen
    cases prof with
    | none => simpa [feedOnInsert] using hlen
    | some n =>
        simp only [feedOnInsert, List.length_cons, List.length_take]
        omega
  · intro n hn
    subst hn
    rfl
  · intro hn
    subst hn
    rfl

/-- Witness for claim C7 at an empty observer state and a resolved profile. -/
theorem liveFeed_step_spec_witness :
    (feedOnInsertWithLedger [] ⟨0, []⟩ 1 2 3 (some (some "Ann"))).1 = [] ∧
    (feedOnInsert ⟨0, []⟩ 1 2 3 (some (some "Ann"))).checkInCount = 0 + 1 ∧
    (([] : List FeedEntry).length ≤ 10 →
      (feedOnInsert ⟨0, []⟩ 1 2 3 (some (some "Ann"))).recentCheckIns.length ≤ 10) ∧
    (∀ n, (some (some "Ann") : Option (Option String)) = some n →
      (feedOnInsert ⟨0, []⟩ 1 2 3 (some (some "Ann"))).recentCheckIns
        = ⟨1, displayName n, 3⟩ :: ([] : List FeedEntry).take 9) ∧
    ((some (some "Ann") : Option (Option String)) = none →
      (feedOnInsert ⟨0, []⟩ 1 2 3 (some (some "Ann"))).recentCheckIns = []) :=
  liveFeed_step_spec [] ⟨0, []⟩ 1 2 3 (some (some "Ann"))

/-- Counterexample to claim C8: when the check-ins delete fails (its error is
discarded by the source) and the event delete succeeds, the event row is gone
while its check-in row remains — a partial cascade reported as success. -/
theorem deleteEvent_partial_cascade_counterexample :
    handleDeleteEvent ⟨[7], [], [⟨7, 1⟩]⟩ 7 true false true
      = (⟨[], [], [⟨7, 1⟩]⟩, .success) := by decide

/-- Claim C8 (amended): dependents are deleted before the event row, and when
all three deletes succeed no row of the event survives in either ledger; but
the three deletes are independent and unrolled-back, so a failing event
delete still reports failure with the event row intact while dependents may
already be gone, and a failing dependent delete can leave the partial cascade
of the counterexample. -/
theorem deleteEvent_cascade (st : Store) (e : Nat) :
    ((handleDeleteEvent st e true true true).2 = .success ∧
     (∀ r, r ∈ (handleDeleteEvent st e true true true).1.rsvps →
        r.event_id ≠ e) ∧
     (∀ c, c ∈ (handleDeleteEvent st e true true true).1.checkIns →
        c.event_id ≠ e) ∧
     (∀ x, x ∈ (handleDeleteEvent st e true true true).1.events → x ≠ e)) ∧
    (∀ rOk cOk : Bool,
      (handleDeleteEvent st e rOk cOk false).1.events = st.events ∧
      (handleDeleteEvent st e rOk cOk false).2 = .failure) := by
  constructor
  · refine ⟨rfl, ?_, ?_, ?_⟩
    · intro r hr
      have hm : r ∈ st.rsvps ∧ ¬r.event_id = e := by
        simpa [handleDeleteEvent, deleteRsvpsFor, List.mem_filter] using hr
      exact hm.2
    · intro c hc
      have hm : c ∈ st.checkIns ∧ ¬c.event_id = e := by
        simpa [handleDeleteEvent, deleteCheckInsFor, List.mem_filter] using hc
      exact hm.2
    · intro x hx
      have hm : x ∈ st.events ∧ ¬x = e := by
        simpa [handleDeleteEvent, List.mem_filter] using hx
      exact hm.2
  · intro rOk cOk
    exact ⟨rfl, rfl⟩

/-- Witness for claim C8 on a one-event store with one row per ledger. -/
theorem deleteEvent_cascade_witness :
    ((handleDeleteEvent ⟨[7], [⟨7, 1⟩], [⟨7, 2⟩]⟩ 7 true true true).2 = .success ∧
     (∀ r, r ∈ (handleDeleteEvent ⟨[7], [⟨7, 1⟩], [⟨7, 2⟩]⟩ 7 true true true).1.rsvps →
        r.event_id ≠ 7) ∧
     (∀ c, c ∈ (handleDeleteEvent ⟨[7], [⟨7, 1⟩], [⟨7, 2⟩]⟩ 7 true true true).1.checkIns →
        c.event_id ≠ 7) ∧
     (∀ x, x ∈ (handleDeleteEvent ⟨[7], [⟨7, 1⟩], [⟨7, 2⟩]⟩ 7 true true true).1.events →
        x ≠ 7)) ∧
    (∀ rOk cOk : Bool,
      (handleDeleteEvent ⟨[7], [⟨7, 1⟩], [⟨7, 2⟩]⟩ 7 rOk cOk false).1.events = [7] ∧
      (handleDeleteEvent ⟨[7], [⟨7, 1⟩], [⟨7, 2⟩]⟩ 7 rOk cOk false).2 = .failure) :=
  deleteEvent_cascade ⟨[7], [⟨7, 1⟩], [⟨7, 2⟩]⟩ 7


/-- Counterexample to claim C9: two distinct roster entries with equal name
keys are each ordered strictly before the other (the comparator returns -1
for both argument orders and never 0), so it is not a consistent comparison
function and the runtime stable-sort guarantee that would preserve insertion
order on ties does not apply. -/
theorem sortedAttendees_tie_counterexample :
    cmpAttendees .name .asc
        ⟨1, "alex", "x", some 0, some 1, none, true, false⟩
        ⟨2, "alex", "y", some 0, some 2, none, true, false⟩ = -1 ∧
    cmpAttendees .name .asc
        ⟨2, "alex", "y", some 0, some 2, none, true, false⟩
        ⟨1, "alex", "x", some 0, some 1, none, true, false⟩ = -1 ∧
    (⟨1, "alex", "x", some 0, some 1, none, true, false⟩ : Attendee)
      ≠ ⟨2, "alex", "y", some 0, some 2, none, true, false⟩ ∧
    (⟨1, "alex", "x", some 0, some 1, none, true, false⟩ : Attendee).name
      = (⟨2, "alex", "y", some 0, some 2, none, true, false⟩ : Attendee).name := by
  refine ⟨?_, ?_, by decide, rfl⟩ <;>
    · simp only [cmpAttendees, cmpDir]
      rw [if_neg (lt_irrefl _)]

/-- Claim C9 (amended): re-sorting on the selected field toggles the stored
direction, selecting a new field starts it ascending, the direction persists
in the sort state between clicks; on equal keys the comparator returns -1
rather than 0, so insertion-order preservation on ties is not guaranteed. -/
theorem sort_toggle_spec (f g : SortField) (d : SortDir) (a b : Attendee) :
    handleSort (f, d) f = (f, toggleDir d) ∧
    (g ≠ f → handleSort (f, d) g = (g, .asc)) ∧
    toggleDir (toggleDir d) = d ∧
    (a.name.toLower = b.name.toLower →
      cmpAttendees .name d a b = -1 ∧ cmpAttendees .name d b a = -1) := by
  refine ⟨by simp [handleSort], fun hg => by simp [handleSort, hg],
    by cases d <;> rfl, ?_⟩
  intro h
  cases d <;>
    · constructor <;>
        · simp only [cmpAttendees, cmpDir, h]
          rw [if_neg (lt_irrefl _)]

/-- Witness for claim C9: toggling on name, switching to email, and a tie. -/
theorem sort_toggle_spec_witness :
    handleSort (.name, .asc) .name = (.name, toggleDir .asc) ∧
    handleSort (.name, .asc) .email = (.email, .asc) ∧
    cmpAttendees .name .asc ⟨1, "a", "x", none, none, none, false, false⟩
      ⟨2, "a", "y", none, none, none, false, false⟩ = -1 :=
  have h := sort_toggle_spec .name .email .asc
    ⟨1, "a", "x", none, none, none, false, false⟩
    ⟨2, "a", "y", none, none, none, false, false⟩
  ⟨h.1, h.2.1 (by decide), (h.2.2.2 rfl).1⟩


lemma checkInMapGet_filter_ne (cs : List CheckIn) (x s : Nat) (hx : x ≠ s) :
    checkInMapGet (cs.filter fun c => !(c.student_id == s)) x
      = checkInMapGet cs x := by
  unfold checkInMapGet
  generalize (none : Option Int) = acc
  induction cs generalizing acc with
  | nil => rfl
  | cons c cs ih =>
      simp only [List.filter_cons]
      by_cases hc : c.student_id = s
      · have hcond : (!(c.student_id == s)) = false := by simp [hc]
        rw [hcond]
        have hfx : (c.student_id == x) = false := by
          simp only [beq_eq_false_iff_ne, ne_eq, hc]
          exact fun hh => hx hh.symm
        simp only [Bool.false_eq_true, if_false, List.foldl_cons, hfx]
        exact ih acc
  -- kept branch
      · have hcond : (!(c.student_id == s)) = true := by simp [hc]
        rw [hcond]
        simp only [if_true, List.foldl_cons]
        exact ih _

lemma filterMap_filter_of_none {α β : Type} (f : α → Option β) (q : α → Bool)
    (l : List α) (h : ∀ c ∈ l, q c = false → f c = none) :
    (l.filter q).filterMap f = l.filterMap f := by
  induction l with
  | nil => rfl
  | cons c l ih =>
      simp only [List.filter_cons]
      by_cases hq : q c = true
      · rw [if_pos hq]
        simp only [List.filterMap_cons]
        rw [ih fun x hx hqx => h x (List.mem_cons_of_mem c hx) hqx]
      · have hqf : q c = false := by simpa using hq
        rw [hqf]
        simp only [Bool.false_eq_true, if_false, List.filterMap_cons,
          h c (List.mem_cons_self c l) hqf]
        exact ih fun x hx hqx => h x (List.mem_cons_of_mem c hx) hqx

lemma any_filter_of_none {α : Type} (p q : α → Bool) (l : List α)
    (h : ∀ c ∈ l, q c = false → p c = false) :
    (l.filter q).any p = l.any p := by
  induction l with
  | nil => rfl
  | cons c l ih =>
      simp only [List.filter_cons]
      by_cases hq : q c = true
      · rw [if_pos hq]
        simp only [List.any_cons]
        rw [ih fun x hx hqx => h x (List.mem_cons_of_mem c hx) hqx]
      · have hqf : q c = false := by simpa using hq
        rw [hqf]
        simp only [Bool.false_eq_true, if_false, List.any_cons,
          h c (List.mem_cons_self c l) hqf, Bool.false_or]
        exact ih fun x hx hqx => h x (List.mem_cons_of_mem c hx) hqx


/-- Claim C10: a checked-in student with no reservation appears in the merged
attendee roster exactly when their profile resolves; when it does not, both
the roster and the CSV rows are identical to those computed with that
student's check-ins removed — the student is omitted entirely even though
their rows remain in the check-ins list that the attendance counts measure;
the witness exhibits the resulting roster strictly shorter than the displayed
attendee count. -/
theorem walkIn_roster_spec (rsvps : List RsvpFull) (cs : List CheckIn)
    (profilesOf : Nat → Option ProfileInfo) (s : Nat)
    (hNoRsvp : rsvpAny rsvps s = false) :
    ((∃ a, a ∈ attendeesList rsvps cs profilesOf ∧ a.student_id = s) ↔
      (hasCheckInAny cs s = true ∧ (profilesOf s).isSome = true)) ∧
    (profilesOf s = none →
      attendeesList rsvps cs profilesOf
        = attendeesList rsvps (cs.filter fun c => !(c.student_id == s)) profilesOf ∧
      csvRows rsvps cs profilesOf
        = csvRows rsvps (cs.filter fun c => !(c.student_id == s)) profilesOf) := by
  have hNo : ∀ r ∈ rsvps, r.student_id ≠ s := by
    have hx : ∀ x ∈ rsvps, ¬x.student_id = s := by simpa [rsvpAny] using hNoRsvp
    exact hx
  refine ⟨⟨?_, ?_⟩, ?_⟩
  · rintro ⟨a, ha, has⟩
    rcases List.mem_append.1 ha with h1 | h2
    · exfalso
      obtain ⟨r, hr, hra⟩ := List.mem_map.1 h1
      apply hNo r hr
      rw [← has, ← hra]
    · obtain ⟨c, hc, hfc⟩ := List.mem_filterMap.1 h2
      by_cases hg : rsvpAny rsvps c.student_id = true
      · simp [hg] at hfc
      · have hgf : rsvpAny rsvps c.student_id = false := by simpa using hg
        cases hp : profilesOf c.student_id with
        | none => simp [hgf, hp] at hfc
        | some p =>
            have ha_eq : (⟨c.student_id, p.name, p.email, none, none,
                some c.check_in_time, false, true⟩ : Attendee) = a := by
              simpa [hgf, hp] using hfc
            rw [← ha_eq] at has
            have hcs : c.student_id = s := has
            refine ⟨?_, ?_⟩
            · simp only [hasCheckInAny, List.any_eq_true]
              exact ⟨c, hc, by simp [hcs]⟩
            · rw [← hcs, hp]
              rfl
  · rintro ⟨hany, hsome⟩
    have hany2 : ∃ c ∈ cs, c.student_id = s := by
      simpa [hasCheckInAny] using hany
    obtain ⟨c, hc, hcs⟩ := hany2
    obtain ⟨p, hp⟩ := Option.isSome_iff_exists.1 hsome
    refine ⟨⟨c.student_id, p.name, p.email, none, none,
        some c.check_in_time, false, true⟩, ?_, hcs⟩
    refine List.mem_append.2 (Or.inr (List.mem_filterMap.2 ⟨c, hc, ?_⟩))
    have hg : rsvpAny rsvps c.student_id = false := by rw [hcs]; exact hNoRsvp
    have hp2 : profilesOf c.student_id = some p := by rw [hcs]; exact hp
    simp [hg, hp2]
  · intro hnone
    constructor
    · unfold attendeesList
      congr 1
      · apply List.map_congr_left
        intro r hr
        rw [checkInMapGet_filter_ne cs r.student_id s (hNo r hr)]
      · symm
        apply filterMap_filter_of_none
        intro c hc hqc
        have hcs : c.student_id = s := by simpa using hqc
        simp [hcs, hNoRsvp, hnone]
    · unfold csvRows
      congr 1
      · symm
        apply filterMap_filter_of_none
        intro c hc hqc
        have hcs : c.student_id = s := by simpa using hqc
        simp [hcs, hnone]
      · have hfe : (rsvps.filter fun r => !(hasCheckInAny cs r.student_id))
            = rsvps.filter fun r =>
                !(hasCheckInAny (cs.filter fun c => !(c.student_id == s))
                  r.student_id) := by
          apply List.filter_congr
          intro r hr
          have h2 : ((cs.filter fun c => !(c.student_id == s)).any
                fun c => c.student_id == r.student_id)
              = cs.any fun c => c.student_id == r.student_id := by
            apply any_filter_of_none
            intro c hc hqc
            have hcs : c.student_id = s := by simpa using hqc
            rw [hcs]
            simp only [beq_eq_false_iff_ne, ne_eq]
            exact fun hh => (hNo r hr) hh.symm
          unfold hasCheckInAny
          rw [h2]
        rw [hfe]

/-- Witness for claim C10: one unresolved walk-in gives an empty roster and
empty CSV while the displayed attendee count is 1. -/
theorem walkIn_roster_spec_witness :
    ((∃ a, a ∈ attendeesList [] [⟨5, 0⟩] (fun _ => none) ∧ a.student_id = 5) ↔
      (hasCheckInAny [⟨5, 0⟩] 5 = true ∧
        ((fun _ => none : Nat → Option ProfileInfo) 5).isSome = true)) ∧
    (attendeesList [] [⟨5, 0⟩] (fun _ => none)).length = 0 ∧
    actualAttendance ([] : List RsvpFull).length ([⟨5, 0⟩] : List CheckIn).length = 1 ∧
    csvRows [] [⟨5, 0⟩] (fun _ => none) = [] :=
  ⟨(walkIn_roster_spec [] [⟨5, 0⟩] (fun _ => none) 5 (by rfl)).1,
   rfl, rfl, rfl⟩

end Rso
